import Mathlib

/-
Verification of the whiteboard session adapter
(src/web/flat-web/src/stores/whiteboard-store.ts).

The adapter is shallowly embedded: the fields of the WhiteboardStore class
and of the SDK Room object that the adapter reads or writes become record
fields; each method becomes a pure function on that record (asynchronous
methods become explicit event interleavings or Except-valued functions).
-/

namespace WhiteboardStore

/-! ## Write-permission gate (updateWritable, lines 75-86)

The adapter touches exactly two fields of the SDK room object:
`disableDeviceInputs` and `disableSerialization`. -/

/-- Fields of the SDK Room object written by the adapter. -/
structure RoomFlags where
  disableDeviceInputs : Bool
  disableSerialization : Bool
deriving DecidableEq

/-- Store state relevant to the write gate: the locally stored writable flag
and the (possibly null) room handle. -/
structure WriteState where
  isWritable : Bool
  room : Option RoomFlags
deriving DecidableEq

/-- Sequential embedding of updateWritable with an injected outcome for the
awaited room.setWritable request. The method first stores the new value,
then, only when the value changed and the room is non-null, awaits the
session-engine request; a rejection propagates (error case, carrying the
store state left behind); on success it sets disableDeviceInputs to the
negation of the argument and clears disableSerialization when turning
writable on. The returned Bool records whether a request was issued. -/
def updateWritableE (fail : Bool) (s : WriteState) (arg : Bool) :
    Except WriteState (WriteState × Bool) :=
  let old := s.isWritable
  let s1 : WriteState := { s with isWritable := arg }
  if (old != arg) && s1.room.isSome then
    if fail then .error s1
    else
      match s1.room with
      | some rf =>
          .ok ({ s1 with
                 room := some { disableDeviceInputs := !arg,
                                disableSerialization :=
                                  if arg then false else rf.disableSerialization } },
               true)
      | none => .ok (s1, true)
  else .ok (s1, false)

/-! ### Interleaved model of overlapping updateWritable calls

A call has a synchronous part (store the value, decide whether to issue a
request) and an asynchronous continuation (after `await room.setWritable`).
Overlapping calls are modelled as an event list: `call arg` runs the
synchronous part, `resolve i` runs the continuation of outstanding request
number `i`. -/

/-- Events of the interleaved write-gate model. -/
inductive WEvent where
  | call (arg : Bool)
  | resolve (idx : Nat)
deriving DecidableEq

/-- Execution state: the store plus the outstanding awaited requests. -/
structure WExec where
  ws : WriteState
  pending : List (Nat × Bool)
  nextIdx : Nat
deriving DecidableEq

/-- One step of the interleaved model. A `call` mirrors lines 76-80 up to
the await; a `resolve` mirrors lines 81-84, run when that request's
promise settles. A resolve of an unknown index is a no-op. -/
def wStep (e : WExec) : WEvent → WExec
  | .call arg =>
    let old := e.ws.isWritable
    let ws1 : WriteState := { e.ws with isWritable := arg }
    if (old != arg) && e.ws.room.isSome then
      { ws := ws1, pending := e.pending ++ [(e.nextIdx, arg)], nextIdx := e.nextIdx + 1 }
    else
      { ws := ws1, pending := e.pending, nextIdx := e.nextIdx + 1 }
  | .resolve i =>
    match e.pending.find? (fun p => p.1 == i) with
    | none => e
    | some (_, arg) =>
      match e.ws.room with
      | none => { e with pending := e.pending.filter (fun p => p.1 != i) }
      | some rf =>
        { ws := { e.ws with
                  room := some { disableDeviceInputs := !arg,
                                 disableSerialization :=
                                   if arg then false else rf.disableSerialization } },
          pending := e.pending.filter (fun p => p.1 != i),
          nextIdx := e.nextIdx }

/-- Run a list of events. -/
def wRun (e : WExec) (evs : List WEvent) : WExec :=
  evs.foldl wStep e

/-- Sequential schedule: each call's commit resolves before the next call
starts. -/
def seqEvents : Nat → List Bool → List WEvent
  | _, [] => []
  | n, a :: as => .call a :: .resolve n :: seqEvents (n + 1) as

/-- Argument of the last call event in a trace, if the trace has any call. -/
def lastCallArg : List WEvent → Option Bool
  | [] => none
  | .call a :: rest => some ((lastCallArg rest).getD a)
  | .resolve _ :: rest => lastCallArg rest

/-! ## Adapter state for lifecycle, kick handling and scene navigation -/

/-- The part of the SDK Room handle the lifecycle methods touch: whether its
callbacks are still registered (room.callbacks.off() deregisters them). -/
structure RoomObj where
  callbacksOn : Bool
deriving DecidableEq

/-- Observable adapter state used by destroy, onKickedWithReason and the
scene-navigation methods. roomScenesLen mirrors the room's authoritative
scene-list length (room.state.sceneState.scenes.length); windowManager is
its presence (null or not); preloadPending records whether a debounced
preload is currently scheduled. -/
structure AdapterState where
  room : Option RoomObj
  windowManager : Bool
  preloadPending : Bool
  isKicked : Bool
  isCreator : Bool
  currentSceneIndex : Int
  scenesCount : Int
  roomScenesLen : Int
deriving DecidableEq

/-- Embedding of destroyWindowManager (lines 252-255): destroy the window
manager and null the field. -/
def destroyWindowManager (s : AdapterState) : AdapterState :=
  { s with windowManager := false }

/-- Embedding of destroy (lines 395-405): cancel the debounced preload,
destroy the window manager, and deregister the room's callbacks (the room
field itself is not assigned). -/
def destroy (s : AdapterState) : AdapterState :=
  let s1 : AdapterState := { s with preloadPending := false }
  let s2 := destroyWindowManager s1
  { s2 with room := s2.room.map (fun r => { r with callbacksOn := false }) }

/-- Embedding of the onKickedWithReason callback (lines 347-364): for the
three qualifying reason strings, set isKicked unless the local user is the
room creator; otherwise do nothing. -/
def onKickedWithReason (s : AdapterState) (reason : String) : AdapterState :=
  if reason = "kickByAdmin" || reason = "roomDelete" || reason = "roomBan" then
    if !s.isCreator then { s with isKicked := true } else s
  else s

/-- Embedding of preMainViewScene (lines 162-166): when the window manager
is present and the index is positive, request mainViewSceneIndex = index-1;
otherwise do nothing. The second component is the index passed to
windowManager.setMainViewSceneIndex, none when no call is made. -/
def preMainViewScene (s : AdapterState) : AdapterState × Option Int :=
  if s.windowManager && decide (s.currentSceneIndex > 0) then
    (s, some (s.currentSceneIndex - 1))
  else (s, none)

/-- Embedding of nextMainViewScene (lines 168-172): when the window manager
is present and the index is below scenesCount-1, request index+1. -/
def nextMainViewScene (s : AdapterState) : AdapterState × Option Int :=
  if s.windowManager && decide (s.currentSceneIndex < s.scenesCount - 1) then
    (s, some (s.currentSceneIndex + 1))
  else (s, none)

/-- Embedding of addMainViewScene (lines 151-160): when room and window
manager are present, putScenes inserts one blank scene at position index+1
(growing the room's scene list by one) and mainViewSceneIndex = index+1 is
requested. -/
def addMainViewScene (s : AdapterState) : AdapterState × Option Int :=
  if s.room.isSome && s.windowManager then
    ({ s with roomScenesLen := s.roomScenesLen + 1 }, some (s.currentSceneIndex + 1))
  else (s, none)

/-! ## Join preconditions (joinWhiteboardRoom, lines 257-264) -/

/-- The global-store fields joinWhiteboardRoom reads before any network
operation. -/
structure GlobalStoreShadow where
  userUUID : Option String
  whiteboardRoomUUID : Option String
  whiteboardRoomToken : Option String
deriving DecidableEq

/-- JavaScript truthiness of an optional string: absent and empty are falsy. -/
def truthy : Option String → Bool
  | none => false
  | some s => !s.isEmpty

/-- Effects the join performs after its precondition checks: constructing
the WhiteWebSdk instance and issuing the joinRoom network call. -/
inductive JoinEffect where
  | sdkConstruct
  | sdkJoinRoom
deriving DecidableEq

/-- Embedding of the head of joinWhiteboardRoom: the two guard clauses run
before the SDK is constructed and before any network operation; the result
is the list of effects performed together with the thrown error message,
if any. -/
def joinWhiteboardRoomStart (g : GlobalStoreShadow) : List JoinEffect × Option String :=
  if !truthy g.userUUID then ([], some "Missing userUUID")
  else if !truthy g.whiteboardRoomUUID || !truthy g.whiteboardRoomToken then
    ([], some "Missing Whiteboard UUID and Token")
  else ([.sdkConstruct, .sdkJoinRoom], none)

/-! ## Document-source parsing (makeSlideParams, lines 407-436)

The source matches scene sources against the JavaScript regular expression
  /^pptx?(?<pre>:\/\/\S+?dynamicConvert)\/(?<taskId>\w+)\//
The matcher below implements exactly that pattern's backtracking semantics
on the characters of the source string. -/

/-- JavaScript word character, as in the \w character class. -/
def isWordChar (c : Char) : Bool :=
  c.isAlphanum || c == '_'

/-- The JavaScript whitespace class \s: tab, line feed, vertical tab, form
feed, carriage return, space, no-break space, the Ogham space mark, the
Unicode space separators U+2000 to U+200A, the line and paragraph
separators, the narrow no-break space, the medium mathematical space, the
ideographic space, and the byte-order mark. -/
def isJsWhitespace (c : Char) : Bool :=
  c = '\t' || c = '\n' || c = '\x0b' || c = '\x0c' || c = '\r' || c = ' ' ||
  c = '\u00a0' || c = '\u1680' ||
  c = '\u2000' || c = '\u2001' || c = '\u2002' || c = '\u2003' || c = '\u2004' ||
  c = '\u2005' || c = '\u2006' || c = '\u2007' || c = '\u2008' || c = '\u2009' ||
  c = '\u200a' || c = '\u2028' || c = '\u2029' || c = '\u202f' || c = '\u205f' ||
  c = '\u3000' || c = '\ufeff'

/-- Negation of the JavaScript whitespace class, as in \S. -/
def isNonSpace (c : Char) : Bool :=
  !isJsWhitespace c

/-- Drop a literal leading character sequence, failing when it is absent. -/
def dropLead : List Char → List Char → Option (List Char)
  | [], cs => some cs
  | _ :: _, [] => none
  | a :: p, c :: cs => if a = c then dropLead p cs else none

/-- String.startsWith over the characters of the strings (the JS
String.prototype.startsWith used at line 423). -/
def leadsWith (p s : String) : Bool :=
  (dropLead p.toList s.toList).isSome

/-- Longest leading run of word characters and the remainder. -/
def takeWordRun : List Char → List Char × List Char
  | [] => ([], [])
  | c :: cs =>
    if isWordChar c then
      let r := takeWordRun cs
      (c :: r.1, r.2)
    else ([], c :: cs)

/-- Attempt the continuation dynamicConvert/\w+/ at the current position.
acc holds the characters already consumed by \S+? in reverse; the +
quantifier demands it be nonempty. The greedy \w+ followed by a literal
slash is equivalent to the maximal word run followed by a slash, since no
shorter split can put a slash next. Returns the consumed run (in order)
and the task identifier. -/
def tryConvertAt (acc cs : List Char) : Option (List Char × String) :=
  if acc.isEmpty then none
  else
    match dropLead "dynamicConvert".toList cs with
    | none => none
    | some r1 =>
      match r1 with
      | '/' :: r2 =>
        if (takeWordRun r2).1.isEmpty then none
        else
          match (takeWordRun r2).2 with
          | '/' :: _ => some (acc.reverse, String.mk (takeWordRun r2).1)
          | _ => none
      | _ => none

/-- Lazy \S+? scan: try the continuation at the shortest position first,
then consume one more non-whitespace character and retry. -/
def scanConvert : List Char → List Char → Option (List Char × String)
  | _, [] => none
  | acc, c :: rest =>
    match tryConvertAt acc (c :: rest) with
    | some r => some r
    | none => if isNonSpace c then scanConvert (c :: acc) rest else none

/-- Consume one leading x when present, as the greedy x? quantifier does.
This is faithful to the backtracking semantics because the alternative
continuation must start with a colon, which the character x never is. -/
def dropOptX : List Char → List Char
  | 'x' :: r => r
  | r => r

/-- Whole-pattern matcher: anchored pptx? then ://, then the lazy scan.
On a match, returns the captured task identifier and the reconstructed
https URL (the string https prepended to the captured group, which spans
:// up to and including dynamicConvert). -/
def pptSrcMatch (src : String) : Option (String × String) :=
  match dropLead "ppt".toList src.toList with
  | none => none
  | some r0 =>
    match dropLead "://".toList (dropOptX r0) with
    | none => none
    | some r1 =>
      match scanConvert [] r1 with
      | none => none
      | some (mid, taskId) =>
        some (taskId, "https://" ++ (String.mk mid ++ "dynamicConvert"))

/-! ## Content Insertion Gateway (lines 174-228, 407-436) -/

/-- Scene definition: the adapter reads only the optional name and the
optional ppt payload's src. -/
structure PptDef where
  src : String
deriving DecidableEq

/-- Scene record as consumed by makeSlideParams. -/
structure SceneDef where
  name : Option String
  ppt : Option PptDef
deriving DecidableEq

/-- Scene stripped to its name, as pushed onto scenesWithoutPPT. -/
def stripScene (sc : SceneDef) : SceneDef :=
  { name := sc.name, ppt := none }

/-- Whether a scene takes the slide branch of the loop body: a ppt payload
whose src starts with ppt and matches the conversion pattern. -/
def sceneMatches (sc : SceneDef) : Bool :=
  match sc.ppt with
  | none => false
  | some p => leadsWith "ppt" p.src && (pptSrcMatch p.src).isSome

/-- Loop of makeSlideParams: push the stripped scene, skip scenes with no
ppt, src not starting with ppt, or no regex match; at the first match set
taskId and url and break (scenes after the break are not pushed). -/
def makeSlideParamsGo : List SceneDef → List SceneDef → List SceneDef × String × String
  | [], acc => (acc.reverse, "", "")
  | sc :: rest, acc =>
    let acc1 := stripScene sc :: acc
    match sc.ppt with
    | none => makeSlideParamsGo rest acc1
    | some p =>
      if !leadsWith "ppt" p.src then makeSlideParamsGo rest acc1
      else
        match pptSrcMatch p.src with
        | none => makeSlideParamsGo rest acc1
        | some (tid, u) => (acc1.reverse, tid, u)

/-- Embedding of makeSlideParams (lines 407-436). -/
def makeSlideParams (scenes : List SceneDef) : List SceneDef × String × String :=
  makeSlideParamsGo scenes []

/-- Window kinds the gateway can open. -/
inductive AppKind where
  | slide
  | docsViewer
  | mediaPlayer
deriving DecidableEq

/-- Arguments of a windowManager.addApp call as issued by the gateway. -/
structure AddAppCall where
  kind : AppKind
  scenePath : Option String
  title : Option String
  scenes : Option (List SceneDef)
  taskId : Option String
  url : Option String
  src : Option String
deriving DecidableEq

/-- Store state read by the gateway: only windowManager presence matters. -/
structure GatewayState where
  windowManager : Bool
deriving DecidableEq

/-- The try/catch surrounding the awaited addApp call: a rejection is
caught and logged (console.log), never re-thrown, so the overall result is
always ok, carrying the issued call and the logged message if any. -/
def catchLog (st : GatewayState) (call : AddAppCall) (o : Except String Unit) :
    Except String (GatewayState × Option AddAppCall × Option String) :=
  match o with
  | .ok _ => .ok (st, some call, none)
  | .error e => .ok (st, some call, some e)

/-- Embedding of openDocsFileInWindowManager (lines 174-209). The awaited
addApp call's behaviour is injected as outcome. The whole body is inside a
try/catch whose handler only logs, so the function itself never rejects:
the result is ok, carrying the unchanged state, the addApp call issued (if
any) and the logged error (if any). -/
def openDocsFileInWindowManager (st : GatewayState)
    (outcome : AddAppCall → Except String Unit)
    (scenePath title : String) (scenes : List SceneDef) :
    Except String (GatewayState × Option AddAppCall × Option String) :=
  if st.windowManager then
    let p := makeSlideParams scenes
    let call : AddAppCall :=
      if p.2.1 != "" && p.2.2 != "" then
        { kind := .slide, scenePath := some scenePath, title := some title,
          scenes := some p.1, taskId := some p.2.1, url := some p.2.2, src := none }
      else
        { kind := .docsViewer, scenePath := some scenePath, title := some title,
          scenes := some scenes, taskId := none, url := none, src := none }
    catchLog st call (outcome call)
  else .ok (st, none, none)

/-- Embedding of openMediaFileInWindowManager (lines 211-228): optional
chaining skips the call when the window manager is null; the try/catch
only logs, so the function never rejects. -/
def openMediaFileInWindowManager (st : GatewayState)
    (outcome : AddAppCall → Except String Unit)
    (resourceSrc title : String) :
    Except String (GatewayState × Option AddAppCall × Option String) :=
  if st.windowManager then
    let call : AddAppCall :=
      { kind := .mediaPlayer, scenePath := none, title := some title,
        scenes := none, taskId := none, url := none, src := some resourceSrc }
    catchLog st call (outcome call)
  else .ok (st, none, none)

/-! ## Debounced preload (line 438-440) -/

/-- Events fed to the debounced preload wrapper: an invocation with a
source-URL argument, or an explicit cancel. -/
inductive DEvent where
  | call (arg : String)
  | cancel
deriving DecidableEq

/-- Modelled from the spec: the debounce-with-cancel utility wrapping
preloadPPTResource comes from a library that is not part of src, so its
semantics are taken from the spec's description (a pending-call slot holds
the latest argument and a scheduled due time wait after the call; a new
call replaces the slot and reschedules; cancel clears the slot; the
trailing execution fires when the due time passes). Events carry absolute
times, assumed nondecreasing; the result lists the executed preloads with
their firing times, up to endT. -/
def debounceRun (wait : Nat) : List (Nat × DEvent) → Option (Nat × String) → Nat →
    List (Nat × String)
  | [], pend, endT =>
    match pend with
    | some (due, a) => if due ≤ endT then [(due, a)] else []
    | none => []
  | (t, ev) :: rest, pend, endT =>
    let fired : List (Nat × String) × Option (Nat × String) :=
      match pend with
      | some (due, a) => if due ≤ t then ([(due, a)], none) else ([], pend)
      | none => ([], none)
    match ev with
    | .call a => fired.1 ++ debounceRun wait rest (some (t + wait, a)) endT
    | .cancel => fired.1 ++ debounceRun wait rest none endT

/-- Quiet window of the preload debounce in the source: 2000 milliseconds. -/
def preloadDebounceWait : Nat := 2000

/-- A concrete overlapping execution of two updateWritable calls whose
commits resolve out of call order: setWritable(true) is issued, then
setWritable(false) while the first is still in flight; the second commit
resolves first, the first commit resolves last. -/
def overlapExec : WExec :=
  wRun { ws := { isWritable := false,
                 room := some { disableDeviceInputs := true, disableSerialization := true } },
         pending := [], nextIdx := 0 }
    [.call true, .call false, .resolve 1, .resolve 0]

/-! ## Theorems -/

/-- Appending to a nonempty string on the left cannot give the empty string. -/
theorem strAppendLeftNe (s t : String) (h : s ≠ "") : s ++ t ≠ "" := by
  intro he
  apply h
  have h2 := congrArg String.data he
  rw [String.data_append] at h2
  have h0 : ("" : String).data = [] := rfl
  rw [h0] at h2
  rcases List.append_eq_nil.mp h2 with ⟨h3, _⟩
  exact String.ext h3

/-- A string built from a nonempty character list is not the empty string. -/
theorem strMkConsNe (c : Char) (cs : List Char) : String.mk (c :: cs) ≠ "" := by
  intro h
  have h2 := congrArg String.data h
  simp at h2

/-- catchLog always resolves, returning the unchanged state and the issued
call, with some log message exactly when the injected outcome rejected. -/
theorem catchLog_ok (st : GatewayState) (call : AddAppCall) (o : Except String Unit) :
    ∃ log, catchLog st call o = .ok (st, some call, log) := by
  cases o with
  | ok u => exact ⟨none, rfl⟩
  | error e => exact ⟨some e, rfl⟩

/-- C1 (counterexample): from a state with a non-null session handle,
destroy leaves the room field non-null, refuting the claim that the
session handle is null after teardown. -/
theorem c1_destroy_counterexample :
    (destroy { room := some { callbacksOn := true }, windowManager := true,
               preloadPending := true, isKicked := false, isCreator := false,
               currentSceneIndex := 0, scenesCount := 1, roomScenesLen := 1 }).room ≠ none := by
  decide

/-- C1 (amended): after destroy, following any prior state, the
window-management instance is null and no debounced preload remains
scheduled, and the session handle's callbacks are deregistered; the
session-handle field itself keeps its previous value and is not nulled. -/
theorem c1_destroy_amended (s : AdapterState) :
    (destroy s).windowManager = false ∧ (destroy s).preloadPending = false ∧
    (destroy s).room = s.room.map (fun r => { r with callbacksOn := false }) := by
  cases s with
  | mk room wm pre kick cr idx cnt len =>
    cases room <;> simp [destroy, destroyWindowManager]

/-- C3: when the requested value differs from the stored one and the
session-engine request fails, updateWritableE rejects, propagating the
error to the caller, and the store is left at the new value with the
session flags untouched (no rollback). -/
theorem c3_writable_failure (s : WriteState) (arg : Bool)
    (hne : s.isWritable ≠ arg) (hroom : s.room.isSome = true) :
    updateWritableE true s arg = .error { s with isWritable := arg } := by
  unfold updateWritableE
  simp [bne_iff_ne, hne, hroom]

/-- C3 witness at a concrete state. -/
theorem c3_writable_failure_witness :
    updateWritableE true
        { isWritable := false,
          room := some { disableDeviceInputs := true, disableSerialization := true } } true
      = .error { isWritable := true,
                 room := some { disableDeviceInputs := true, disableSerialization := true } } :=
  c3_writable_failure
    { isWritable := false,
      room := some { disableDeviceInputs := true, disableSerialization := true } }
    true (by decide) (by decide)

/-- C4: calling updateWritable with the currently stored value performs no
session-engine request and changes no session flags, for every current
value, every session state and every would-be request outcome. -/
theorem c4_writable_noop (fail : Bool) (s : WriteState) (arg : Bool)
    (h : arg = s.isWritable) :
    updateWritableE fail s arg = .ok (s, false) := by
  subst h
  cases s with
  | mk w room => simp [updateWritableE]

/-- C4 witness at a concrete state. -/
theorem c4_writable_noop_witness :
    updateWritableE true
        { isWritable := true,
          room := some { disableDeviceInputs := false, disableSerialization := true } } true
      = .ok ({ isWritable := true,
               room := some { disableDeviceInputs := false, disableSerialization := true } },
             false) :=
  c4_writable_noop true
    { isWritable := true,
      room := some { disableDeviceInputs := false, disableSerialization := true } }
    true rfl

/-- C7: a kick notification with one of the three qualifying reasons sets
the Kicked flag for a non-creator, leaves the whole state unchanged for a
creator (so the flag stays false), and any other reason leaves the state
unchanged. -/
theorem c7_kick_reason (s : AdapterState) (reason : String) :
    ((reason = "kickByAdmin" ∨ reason = "roomDelete" ∨ reason = "roomBan") →
      (s.isCreator = false → (onKickedWithReason s reason).isKicked = true) ∧
      (s.isCreator = true → onKickedWithReason s reason = s)) ∧
    ((reason ≠ "kickByAdmin" ∧ reason ≠ "roomDelete" ∧ reason ≠ "roomBan") →
      onKickedWithReason s reason = s) := by
  constructor
  · rintro (h | h | h) <;> subst h <;>
      exact ⟨fun hc => by simp [onKickedWithReason, hc], fun hc => by simp [onKickedWithReason, hc]⟩
  · rintro ⟨h1, h2, h3⟩
    simp [onKickedWithReason, h1, h2, h3]

/-- C7 witness: a non-creator is kicked by an admin kick, a creator is not
kicked by the identical notification, and an unrelated reason changes
nothing. -/
theorem c7_kick_reason_witness :
    (onKickedWithReason
        { room := none, windowManager := false, preloadPending := false, isKicked := false,
          isCreator := false, currentSceneIndex := 0, scenesCount := 0, roomScenesLen := 0 }
        "kickByAdmin").isKicked = true ∧
    onKickedWithReason
        { room := none, windowManager := false, preloadPending := false, isKicked := false,
          isCreator := true, currentSceneIndex := 0, scenesCount := 0, roomScenesLen := 0 }
        "kickByAdmin"
      = { room := none, windowManager := false, preloadPending := false, isKicked := false,
          isCreator := true, currentSceneIndex := 0, scenesCount := 0, roomScenesLen := 0 } ∧
    onKickedWithReason
        { room := none, windowManager := false, preloadPending := false, isKicked := false,
          isCreator := false, currentSceneIndex := 0, scenesCount := 0, roomScenesLen := 0 }
        "phaseChange"
      = { room := none, windowManager := false, preloadPending := false, isKicked := false,
          isCreator := false, currentSceneIndex := 0, scenesCount := 0, roomScenesLen := 0 } :=
  ⟨((c7_kick_reason _ "kickByAdmin").1 (Or.inl rfl)).1 rfl,
   ((c7_kick_reason _ "kickByAdmin").1 (Or.inl rfl)).2 rfl,
   (c7_kick_reason _ "phaseChange").2 (by decide)⟩

/-- C9: when the user identity, the room identifier or the access token is
absent (falsy), joinWhiteboardRoom throws one of the two configuration
errors with no SDK construction and no network effect performed. -/
theorem c9_join_preconditions (g : GlobalStoreShadow)
    (h : truthy g.userUUID = false ∨ truthy g.whiteboardRoomUUID = false ∨
         truthy g.whiteboardRoomToken = false) :
    (joinWhiteboardRoomStart g).1 = [] ∧
    ((joinWhiteboardRoomStart g).2 = some "Missing userUUID" ∨
     (joinWhiteboardRoomStart g).2 = some "Missing Whiteboard UUID and Token") := by
  rcases h with h | h | h <;>
    cases htu : truthy g.userUUID <;> simp [joinWhiteboardRoomStart, h, htu]

/-- C9 witness: a missing user identity fails fast with no effects. -/
theorem c9_join_preconditions_witness :
    (joinWhiteboardRoomStart
        { userUUID := none, whiteboardRoomUUID := some "r",
          whiteboardRoomToken := some "t" }).1 = [] ∧
    ((joinWhiteboardRoomStart
        { userUUID := none, whiteboardRoomUUID := some "r",
          whiteboardRoomToken := some "t" }).2 = some "Missing userUUID" ∨
     (joinWhiteboardRoomStart
        { userUUID := none, whiteboardRoomUUID := some "r",
          whiteboardRoomToken := some "t" }).2 = some "Missing Whiteboard UUID and Token") :=
  c9_join_preconditions
    { userUUID := none, whiteboardRoomUUID := some "r", whiteboardRoomToken := some "t" }
    (Or.inl rfl)

/-- C10: for every input and every behaviour of the window-management
addApp call, the open-document and open-media operations resolve (never
reject), leaving the gateway state unchanged; a failure is at most logged. -/
theorem c10_content_open_never_rejects (st : GatewayState)
    (outcome : AddAppCall → Except String Unit)
    (scenePath title resourceSrc mediaTitle : String) (scenes : List SceneDef) :
    (∃ out log,
        openDocsFileInWindowManager st outcome scenePath title scenes = .ok (st, out, log)) ∧
    (∃ out log,
        openMediaFileInWindowManager st outcome resourceSrc mediaTitle = .ok (st, out, log)) := by
  constructor
  · unfold openDocsFileInWindowManager
    cases hw : st.windowManager with
    | false => exact ⟨none, none, by simp⟩
    | true =>
      simp only [if_true]
      obtain ⟨log, hlog⟩ := catchLog_ok st _ (outcome _)
      exact ⟨_, log, hlog⟩
  · unfold openMediaFileInWindowManager
    cases hw : st.windowManager with
    | false => exact ⟨none, none, by simp⟩
    | true =>
      simp only [if_true]
      obtain ⟨log, hlog⟩ := catchLog_ok st _ (outcome _)
      exact ⟨_, log, hlog⟩

/-- C8: starting from a scene index inside the valid range, each navigation
operation only ever requests an in-range main-view scene index (for add
scene, in range for the grown scene list), and navigating past either
bound requests nothing and changes nothing. -/
theorem c8_scene_navigation (s : AdapterState)
    (h0 : 0 ≤ s.currentSceneIndex) (h1 : s.currentSceneIndex ≤ s.scenesCount - 1)
    (hsync : s.roomScenesLen = s.scenesCount) :
    (∀ i, (preMainViewScene s).2 = some i → 0 ≤ i ∧ i ≤ s.scenesCount - 1) ∧
    (s.currentSceneIndex = 0 → preMainViewScene s = (s, none)) ∧
    (∀ i, (nextMainViewScene s).2 = some i → 0 ≤ i ∧ i ≤ s.scenesCount - 1) ∧
    (s.currentSceneIndex = s.scenesCount - 1 → nextMainViewScene s = (s, none)) ∧
    (∀ i, (addMainViewScene s).2 = some i →
      0 ≤ i ∧ i ≤ (addMainViewScene s).1.roomScenesLen - 1) := by
  refine ⟨?_, ?_, ?_, ?_, ?_⟩
  · intro i hi
    unfold preMainViewScene at hi
    split at hi
    · rename_i hc
      simp only [Bool.and_eq_true, decide_eq_true_eq] at hc
      simp only [Option.some.injEq] at hi
      omega
    · simp at hi
  · intro hz
    unfold preMainViewScene
    rw [if_neg]
    simp [hz]
  · intro i hi
    unfold nextMainViewScene at hi
    split at hi
    · rename_i hc
      simp only [Bool.and_eq_true, decide_eq_true_eq] at hc
      simp only [Option.some.injEq] at hi
      omega
    · simp at hi
  · intro hz
    unfold nextMainViewScene
    rw [if_neg]
    simp [hz]
  · intro i hi
    unfold addMainViewScene at hi ⊢
    split at hi
    · rename_i hc
      simp only [Option.some.injEq] at hi
      simp only [if_pos hc]
      omega
    · simp at hi

/-- C8 witness at a concrete mid-range state. -/
theorem c8_scene_navigation_witness :
    (0 : Int) ≤ 0 ∧ (0 : Int) ≤
      ({ room := some { callbacksOn := true }, windowManager := true,
         preloadPending := false, isKicked := false, isCreator := true,
         currentSceneIndex := 1, scenesCount := 3,
         roomScenesLen := 3 } : AdapterState).scenesCount - 1 :=
  (c8_scene_navigation
      { room := some { callbacksOn := true }, windowManager := true,
        preloadPending := false, isKicked := false, isCreator := true,
        currentSceneIndex := 1, scenesCount := 3, roomScenesLen := 3 }
      (by decide) (by decide) rfl).1 0 (by decide)

/-- C6: two debounced preload requests inside the quiet window execute
exactly one preload, at quiet-window expiry after the second call and with
the second call's argument; a request followed by a cancel inside the
quiet window executes no preload at all. -/
theorem c6_debounced_preload (t1 t2 endT : Nat) (a1 a2 : String)
    (_horder : t1 ≤ t2) (hwin : t2 < t1 + preloadDebounceWait)
    (hend : t2 + preloadDebounceWait ≤ endT) :
    debounceRun preloadDebounceWait [(t1, .call a1), (t2, .call a2)] none endT
      = [(t2 + preloadDebounceWait, a2)] ∧
    debounceRun preloadDebounceWait [(t1, .call a1), (t2, .cancel)] none endT = [] := by
  have hno : ¬ (t1 + preloadDebounceWait ≤ t2) := by omega
  constructor <;> simp [debounceRun, hno, hend]

/-- C6 witness at concrete times well inside the 2000ms window. -/
theorem c6_debounced_preload_witness :
    debounceRun preloadDebounceWait
        [(0, .call "src-a"), (1000, .call "src-b")] none 4000
      = [(1000 + preloadDebounceWait, "src-b")] ∧
    debounceRun preloadDebounceWait
        [(0, .call "src-a"), (1000, .cancel)] none 4000 = [] :=
  c6_debounced_preload 0 1000 4000 "src-a" "src-b" (by decide) (by decide) (by decide)

/-- C2 (counterexample): two overlapping setWritable calls (true then
false) whose commits resolve out of call order. All commits have resolved
and the final committed value is false (the last call's argument), yet the
session's device-input-disabled flag is false, not the negation of the
committed value: the claimed invariant fails for out-of-order commit
resolution. -/
theorem c2_overlap_counterexample :
    overlapExec.pending = [] ∧
    overlapExec.ws.isWritable = false ∧
    overlapExec.ws.room.map RoomFlags.disableDeviceInputs ≠
      some (!overlapExec.ws.isWritable) := by
  decide

/-- A call event always stores its argument as the committed value,
whichever branch the request guard takes. -/
theorem wStep_call_isWritable (e : WExec) (a : Bool) :
    (wStep e (.call a)).ws.isWritable = a := by
  simp only [wStep]
  split <;> rfl

/-- A resolve event never writes the committed value: the continuation
after the await touches only the room flags. -/
theorem wStep_resolve_isWritable (e : WExec) (i : Nat) :
    (wStep e (.resolve i)).ws.isWritable = e.ws.isWritable := by
  simp only [wStep]
  split
  · rfl
  · split <;> rfl

/-- Last-call-wins for every interleaving: after any event trace the
committed value equals the argument of the last call, or the initial
value when the trace has no call. -/
theorem wRun_last_call (evs : List WEvent) : ∀ e : WExec,
    (wRun e evs).ws.isWritable = (lastCallArg evs).getD e.ws.isWritable := by
  induction evs with
  | nil => intro e; simp [wRun, lastCallArg]
  | cons ev rest ih =>
    intro e
    have hstep : wRun e (ev :: rest) = wRun (wStep e ev) rest := rfl
    rw [hstep, ih]
    cases ev with
    | call a => simp [lastCallArg, wStep_call_isWritable]
    | resolve i => simp [lastCallArg, wStep_resolve_isWritable]

/-- Two pending entries with the same request index coincide when the
pending list has pairwise-distinct indices. -/
theorem pairwiseKeyEq (l : List (Nat × Bool))
    (hp : l.Pairwise (fun p q => p.1 ≠ q.1))
    (q p : Nat × Bool) (hq : q ∈ l) (hpm : p ∈ l) (hk : q.1 = p.1) : q = p := by
  induction l with
  | nil => cases hq
  | cons x xs ih =>
    rcases List.pairwise_cons.mp hp with ⟨hx, hxs⟩
    rcases List.mem_cons.mp hq with hq1 | hq1
    · rcases List.mem_cons.mp hpm with hp1 | hp1
      · rw [hq1, hp1]
      · subst hq1
        exact absurd hk (hx p hp1)
    · rcases List.mem_cons.mp hpm with hp1 | hp1
      · subst hp1
        exact absurd hk.symm (hx q hq1)
      · exact ih hxs hq1 hp1

/-- One step preserves the serialization invariant over arbitrary
interleavings: the room stays present, pending indices stay distinct and
below the next index, and whenever the committed value is true either
serialization is already enabled or a request with argument true is still
in flight. -/
theorem wStep_serial_step (e : WExec) (ev : WEvent) (rf : RoomFlags)
    (h1 : e.ws.room = some rf)
    (h2 : e.pending.Pairwise (fun p q => p.1 ≠ q.1))
    (h3 : ∀ q ∈ e.pending, q.1 < e.nextIdx)
    (h4 : e.ws.isWritable = true →
      rf.disableSerialization = false ∨ ∃ q ∈ e.pending, q.2 = true) :
    ∃ rf2, (wStep e ev).ws.room = some rf2 ∧
      (wStep e ev).pending.Pairwise (fun p q => p.1 ≠ q.1) ∧
      (∀ q ∈ (wStep e ev).pending, q.1 < (wStep e ev).nextIdx) ∧
      ((wStep e ev).ws.isWritable = true →
        rf2.disableSerialization = false ∨ ∃ q ∈ (wStep e ev).pending, q.2 = true) := by
  obtain ⟨⟨w, roomOpt⟩, pend, n⟩ := e
  simp only at h1 h2 h3 h4
  subst h1
  cases ev with
  | call a =>
    by_cases hc : ((w != a) && (some rf).isSome) = true
    · have hstep : wStep ⟨⟨w, some rf⟩, pend, n⟩ (.call a) =
          ⟨⟨a, some rf⟩, pend ++ [(n, a)], n + 1⟩ := by
        simp only [wStep]
        rw [if_pos hc]
      rw [hstep]
      refine ⟨rf, rfl, ?_, ?_, ?_⟩
      · refine List.pairwise_append.mpr ⟨h2, by simp, ?_⟩
        intro p hp q hq
        have hq2 : q = (n, a) := by simpa using hq
        subst hq2
        have := h3 p hp
        simpa using Nat.ne_of_lt this
      · intro q hq
        rcases List.mem_append.mp hq with hql | hqr
        · have := h3 q hql
          simp only
          omega
        · have hq2 : q = (n, a) := by simpa using hqr
          subst hq2
          simp only
          omega
      · intro hw
        have ha : a = true := hw
        subst ha
        exact Or.inr ⟨(n, true), List.mem_append_right _ (by simp), rfl⟩
    · have hstep : wStep ⟨⟨w, some rf⟩, pend, n⟩ (.call a) =
          ⟨⟨a, some rf⟩, pend, n + 1⟩ := by
        simp only [wStep]
        rw [if_neg hc]
      rw [hstep]
      refine ⟨rf, rfl, h2, ?_, ?_⟩
      · intro q hq
        have := h3 q hq
        simp only
        omega
      · intro hw
        have ha : a = true := hw
        subst ha
        have hwa : w = true := by
          by_contra hwf
          have hw2 : w = false := by
            cases w
            · rfl
            · exact absurd rfl hwf
          apply hc
          subst hw2
          rfl
        exact h4 hwa
  | resolve i =>
    cases hfind : List.find? (fun p => p.1 == i) pend with
    | none =>
      have hstep : wStep ⟨⟨w, some rf⟩, pend, n⟩ (.resolve i) = ⟨⟨w, some rf⟩, pend, n⟩ := by
        simp only [wStep]
        rw [hfind]
      rw [hstep]
      exact ⟨rf, rfl, h2, h3, h4⟩
    | some pf =>
      obtain ⟨j, b⟩ := pf
      have hmem : (j, b) ∈ pend := List.mem_of_find?_eq_some hfind
      have hji : j = i := by
        have := List.find?_some hfind
        simpa using this
      have hstep : wStep ⟨⟨w, some rf⟩, pend, n⟩ (.resolve i) =
          ⟨⟨w, some { disableDeviceInputs := !b,
                      disableSerialization := if b then false else rf.disableSerialization }⟩,
           pend.filter (fun p => p.1 != i), n⟩ := by
        simp only [wStep]
        rw [hfind]
      rw [hstep]
      refine ⟨_, rfl, ?_, ?_, ?_⟩
      · exact List.Pairwise.sublist (List.filter_sublist _) h2
      · intro q hq
        have := h3 q (List.mem_of_mem_filter hq)
        simp only
        omega
      · intro hw
        have hw2 : w = true := hw
        rcases h4 hw2 with hser | ⟨q, hqmem, hqtrue⟩
        · cases b <;> simp [hser]
        · cases hb : b with
          | true => simp
          | false =>
            right
            refine ⟨q, ?_, hqtrue⟩
            refine List.mem_filter.mpr ⟨hqmem, ?_⟩
            have hqi : q.1 ≠ i := by
              intro hqi
              have hqeq : q = (j, b) :=
                pairwiseKeyEq pend h2 q (j, b) hqmem hmem (by rw [hqi, hji])
              rw [hqeq] at hqtrue
              rw [hb] at hqtrue
              exact Bool.false_ne_true hqtrue
            simpa using hqi

/-- Serialization invariant over a whole trace: run wStep_serial_step
along the events. -/
theorem wRun_serial_aux (evs : List WEvent) : ∀ (e : WExec) (rf : RoomFlags),
    e.ws.room = some rf →
    e.pending.Pairwise (fun p q => p.1 ≠ q.1) →
    (∀ q ∈ e.pending, q.1 < e.nextIdx) →
    (e.ws.isWritable = true →
      rf.disableSerialization = false ∨ ∃ q ∈ e.pending, q.2 = true) →
    ∃ rf2, (wRun e evs).ws.room = some rf2 ∧
      ((wRun e evs).ws.isWritable = true →
        rf2.disableSerialization = false ∨ ∃ q ∈ (wRun e evs).pending, q.2 = true) := by
  induction evs with
  | nil => intro e rf h1 h2 h3 h4; exact ⟨rf, h1, h4⟩
  | cons ev rest ih =>
    intro e rf h1 h2 h3 h4
    obtain ⟨rf2, hb1, hb2, hb3, hb4⟩ := wStep_serial_step e ev rf h1 h2 h3 h4
    exact ih (wStep e ev) rf2 hb1 hb2 hb3 hb4

/-- Sequential-schedule mirror: when each setWritable commit resolves
before the next call starts, the committed value, device-input-disabled
mirror and serialization invariant all march in step. -/
theorem wRun_seq_mirror (args : List Bool) (e : WExec) (rf : RoomFlags)
    (hroom : e.ws.room = some rf)
    (hdd : rf.disableDeviceInputs = !e.ws.isWritable)
    (hser : e.ws.isWritable = true → rf.disableSerialization = false)
    (hpend : e.pending = []) :
    (wRun e (seqEvents e.nextIdx args)).ws.isWritable = args.getLastD e.ws.isWritable ∧
    (wRun e (seqEvents e.nextIdx args)).pending = [] ∧
    ∃ rf2, (wRun e (seqEvents e.nextIdx args)).ws.room = some rf2 ∧
      rf2.disableDeviceInputs = !(wRun e (seqEvents e.nextIdx args)).ws.isWritable ∧
      ((wRun e (seqEvents e.nextIdx args)).ws.isWritable = true →
        rf2.disableSerialization = false) := by
  induction args generalizing e rf with
  | nil =>
    refine ⟨by simp [seqEvents, wRun], by simpa [seqEvents, wRun] using hpend,
      rf, by simpa [seqEvents, wRun] using hroom,
      by simpa [seqEvents, wRun] using hdd,
      by simpa [seqEvents, wRun] using hser⟩
  | cons a as ih =>
    obtain ⟨⟨w, roomOpt⟩, pend, n⟩ := e
    simp only at hroom hdd hser hpend
    subst hroom
    subst hpend
    simp only [seqEvents, wRun, List.foldl_cons, List.getLastD_cons]
    by_cases ha : w = a
    · subst ha
      have hstep1 : wStep ⟨⟨w, some rf⟩, [], n⟩ (.call w) = ⟨⟨w, some rf⟩, [], n + 1⟩ := by
        simp [wStep]
      have hstep2 : wStep ⟨⟨w, some rf⟩, [], n + 1⟩ (.resolve n) = ⟨⟨w, some rf⟩, [], n + 1⟩ := by
        simp [wStep]
      rw [hstep1, hstep2]
      simpa using ih ⟨⟨w, some rf⟩, [], n + 1⟩ rf rfl hdd hser rfl
    · have hstep1 : wStep ⟨⟨w, some rf⟩, [], n⟩ (.call a) = ⟨⟨a, some rf⟩, [(n, a)], n + 1⟩ := by
        simp [wStep, bne_iff_ne, ha]
      have hstep2 : wStep ⟨⟨a, some rf⟩, [(n, a)], n + 1⟩ (.resolve n) =
          ⟨⟨a, some { disableDeviceInputs := !a,
                      disableSerialization := if a then false else rf.disableSerialization }⟩,
           [], n + 1⟩ := by
        simp [wStep]
      rw [hstep1, hstep2]
      simpa using ih
        ⟨⟨a, some { disableDeviceInputs := !a,
                    disableSerialization := if a then false else rf.disableSerialization }⟩,
         [], n + 1⟩
        { disableDeviceInputs := !a,
          disableSerialization := if a then false else rf.disableSerialization }
        rfl rfl (fun h => by simp at h; simp [h]) rfl

/-- C2 (amended): for every interleaving of setWritable calls and commit
resolutions the final committed value equals the argument of the last
call, and once every commit has resolved serialization is enabled
whenever the committed value is true (given the initial invariant); the
device-input-disabled flag equals the negation of the committed value
when commits resolve in call order (in particular for non-overlapping
calls), the clause the out-of-order counterexample refutes in general. -/
theorem c2_write_gate :
    (∀ (evs : List WEvent) (e : WExec),
      (wRun e evs).ws.isWritable = (lastCallArg evs).getD e.ws.isWritable) ∧
    (∀ (evs : List WEvent) (e : WExec) (rf : RoomFlags),
      e.ws.room = some rf →
      (e.ws.isWritable = true → rf.disableSerialization = false) →
      e.pending = [] →
      (wRun e evs).pending = [] →
      ∃ rf2, (wRun e evs).ws.room = some rf2 ∧
        ((wRun e evs).ws.isWritable = true → rf2.disableSerialization = false)) ∧
    (∀ (args : List Bool) (e : WExec) (rf : RoomFlags),
      e.ws.room = some rf →
      rf.disableDeviceInputs = (!e.ws.isWritable) →
      (e.ws.isWritable = true → rf.disableSerialization = false) →
      e.pending = [] →
      (wRun e (seqEvents e.nextIdx args)).ws.isWritable = args.getLastD e.ws.isWritable ∧
      (wRun e (seqEvents e.nextIdx args)).pending = [] ∧
      ∃ rf2, (wRun e (seqEvents e.nextIdx args)).ws.room = some rf2 ∧
        rf2.disableDeviceInputs = (!(wRun e (seqEvents e.nextIdx args)).ws.isWritable) ∧
        ((wRun e (seqEvents e.nextIdx args)).ws.isWritable = true →
          rf2.disableSerialization = false)) := by
  refine ⟨fun evs e => wRun_last_call evs e, ?_, ?_⟩
  · intro evs e rf h1 hser hpend hfinal
    obtain ⟨rf2, hr, hinv⟩ :=
      wRun_serial_aux evs e rf h1
        (by rw [hpend]; exact List.Pairwise.nil)
        (by rw [hpend]; intro q hq; cases hq)
        (fun hw => Or.inl (hser hw))
    refine ⟨rf2, hr, fun hw => ?_⟩
    rcases hinv hw with h | ⟨q, hq, _⟩
    · exact h
    · rw [hfinal] at hq
      cases hq
  · exact wRun_seq_mirror

/-- C2 witness: the last-call-wins and serialization clauses applied at
the out-of-order overlapping trace, and the device-input mirror clause
applied at a concrete sequential run. -/
theorem c2_write_gate_witness :
    (wRun { ws := { isWritable := false,
                    room := some { disableDeviceInputs := true, disableSerialization := true } },
            pending := [], nextIdx := 0 }
        [.call true, .call false, .resolve 1, .resolve 0]).ws.isWritable
      = (lastCallArg [.call true, .call false, .resolve 1, .resolve 0]).getD false ∧
    (∃ rf2,
      (wRun { ws := { isWritable := false,
                      room := some { disableDeviceInputs := true, disableSerialization := true } },
              pending := [], nextIdx := 0 }
          [.call true, .call false, .resolve 1, .resolve 0]).ws.room = some rf2 ∧
      ((wRun { ws := { isWritable := false,
                       room := some { disableDeviceInputs := true, disableSerialization := true } },
               pending := [], nextIdx := 0 }
          [.call true, .call false, .resolve 1, .resolve 0]).ws.isWritable = true →
        rf2.disableSerialization = false)) ∧
    (wRun { ws := { isWritable := false,
                    room := some { disableDeviceInputs := true, disableSerialization := true } },
            pending := [], nextIdx := 0 }
        (seqEvents 0 [true, false])).ws.isWritable = false :=
  ⟨c2_write_gate.1 [.call true, .call false, .resolve 1, .resolve 0]
     { ws := { isWritable := false,
               room := some { disableDeviceInputs := true, disableSerialization := true } },
       pending := [], nextIdx := 0 },
   c2_write_gate.2.1 [.call true, .call false, .resolve 1, .resolve 0]
     { ws := { isWritable := false,
               room := some { disableDeviceInputs := true, disableSerialization := true } },
       pending := [], nextIdx := 0 }
     { disableDeviceInputs := true, disableSerialization := true }
     rfl (by decide) rfl (by decide),
   (c2_write_gate.2.2 [true, false]
     { ws := { isWritable := false,
               room := some { disableDeviceInputs := true, disableSerialization := true } },
       pending := [], nextIdx := 0 }
     { disableDeviceInputs := true, disableSerialization := true }
     rfl rfl (by decide) rfl).1⟩

/-- A successful continuation match always captures a nonempty task
identifier, since the word run is required nonempty. -/
theorem tryConvertAt_tid_ne (acc cs : List Char) (r : List Char × String)
    (h : tryConvertAt acc cs = some r) : r.2 ≠ "" := by
  unfold tryConvertAt at h
  split at h
  · exact absurd h (by simp)
  · split at h
    · exact absurd h (by simp)
    · split at h
      · split at h
        · exact absurd h (by simp)
        · split at h
          · rename_i hne r2v heq2 hw c rest heq
            simp only [Option.some.injEq] at h
            subst h
            simp only
            cases hw1 : (takeWordRun r2v).1 with
            | nil => simp [hw1] at hw
            | cons c0 cs0 => exact hw1 ▸ strMkConsNe c0 cs0
          · exact absurd h (by simp)
      · exact absurd h (by simp)

/-- The lazy scan inherits the nonempty task identifier. -/
theorem scanConvert_tid_ne (cs acc : List Char) (r : List Char × String)
    (h : scanConvert acc cs = some r) : r.2 ≠ "" := by
  induction cs generalizing acc with
  | nil => simp [scanConvert] at h
  | cons c rest ih =>
    unfold scanConvert at h
    cases htry : tryConvertAt acc (c :: rest) with
    | some r2 =>
      rw [htry] at h
      simp only [Option.some.injEq] at h
      subst h
      exact tryConvertAt_tid_ne _ _ _ htry
    | none =>
      rw [htry] at h
      by_cases hns : isNonSpace c
      · rw [if_pos hns] at h
        exact ih _ h
      · rw [if_neg hns] at h
        exact absurd h (by simp)

/-- A whole-pattern match yields a nonempty task identifier and a nonempty
URL, so the JavaScript truthiness test on both necessarily succeeds. -/
theorem pptSrcMatch_parts_ne (s : String) (t u : String)
    (h : pptSrcMatch s = some (t, u)) : t ≠ "" ∧ u ≠ "" := by
  unfold pptSrcMatch at h
  split at h
  · exact absurd h (by simp)
  · split at h
    · exact absurd h (by simp)
    · split at h
      · exact absurd h (by simp)
      · rename_i heq
        simp only [Option.some.injEq, Prod.mk.injEq] at h
        obtain ⟨ht, hu⟩ := h
        subst ht
        subst hu
        exact ⟨scanConvert_tid_ne _ _ _ heq, strAppendLeftNe _ _ (by decide)⟩

/-- A whole-pattern match implies the source starts with ppt, so the
startsWith guard in the loop never blocks a regex match. -/
theorem pptSrcMatch_leads (s : String) (r : String × String)
    (h : pptSrcMatch s = some r) : leadsWith "ppt" s = true := by
  unfold pptSrcMatch at h
  split at h
  · exact absurd h (by simp)
  · rename_i r0 heq
    have heq2 : dropLead ['p', 'p', 't'] s.data = some r0 := heq
    simp [leadsWith, heq2]

/-- A scene taking none of the slide branches falls through to the next
iteration, having pushed only its stripped form. -/
theorem makeSlideParamsGo_cons_skip (sc : SceneDef) (rest acc : List SceneDef)
    (h : sceneMatches sc = false) :
    makeSlideParamsGo (sc :: rest) acc = makeSlideParamsGo rest (stripScene sc :: acc) := by
  unfold sceneMatches at h
  cases hppt : sc.ppt with
  | none => simp [makeSlideParamsGo, hppt]
  | some p =>
    rw [hppt] at h
    simp only [Bool.and_eq_false_iff] at h
    by_cases hl : leadsWith "ppt" p.src = true
    · rcases h with h | h
      · exact absurd hl (by simp [h])
      · have hm : pptSrcMatch p.src = none := by
          cases hmm : pptSrcMatch p.src with
          | none => rfl
          | some r => rw [hmm] at h; simp at h
        simp [makeSlideParamsGo, hppt, hl, hm]
    · have hl2 : leadsWith "ppt" p.src = false := by
        cases hx : leadsWith "ppt" p.src
        · rfl
        · exact absurd hx hl
      simp [makeSlideParamsGo, hppt, hl2]

/-- A matching scene ends the loop with its parse result. -/
theorem makeSlideParamsGo_cons_hit (sc : SceneDef) (rest acc : List SceneDef)
    (p : PptDef) (tid u : String)
    (hppt : sc.ppt = some p) (hm : pptSrcMatch p.src = some (tid, u)) :
    makeSlideParamsGo (sc :: rest) acc = ((stripScene sc :: acc).reverse, tid, u) := by
  have hl : leadsWith "ppt" p.src = true := pptSrcMatch_leads _ _ hm
  simp [makeSlideParamsGo, hppt, hl, hm]

/-- When no scene matches, the loop strips every scene and leaves taskId
and url empty. -/
theorem makeSlideParamsGo_no_match (scenes acc : List SceneDef)
    (h : ∀ sc ∈ scenes, sceneMatches sc = false) :
    makeSlideParamsGo scenes acc = (acc.reverse ++ scenes.map stripScene, "", "") := by
  induction scenes generalizing acc with
  | nil => simp [makeSlideParamsGo]
  | cons sc rest ih =>
    rw [makeSlideParamsGo_cons_skip sc rest acc (h sc (by simp))]
    rw [ih _ (fun x hx => h x (by simp [hx]))]
    simp

/-- makeSlideParams on a list with no matching scene. -/
theorem makeSlideParams_no_match (scenes : List SceneDef)
    (h : scenes.find? sceneMatches = none) :
    makeSlideParams scenes = (scenes.map stripScene, "", "") := by
  have h2 : ∀ sc ∈ scenes, sceneMatches sc = false := by
    intro sc hsc
    simpa using List.find?_eq_none.mp h sc hsc
  unfold makeSlideParams
  rw [makeSlideParamsGo_no_match scenes [] h2]
  simp

/-- makeSlideParams returns the parse result of the first matching scene. -/
theorem makeSlideParams_first_hit (scenes : List SceneDef) (sc : SceneDef)
    (p : PptDef) (tid u : String)
    (hfind : scenes.find? sceneMatches = some sc)
    (hppt : sc.ppt = some p) (hm : pptSrcMatch p.src = some (tid, u)) :
    (makeSlideParams scenes).2 = (tid, u) := by
  unfold makeSlideParams
  suffices hgen : ∀ acc, (makeSlideParamsGo scenes acc).2 = (tid, u) from hgen []
  induction scenes with
  | nil => simp [List.find?] at hfind
  | cons x rest ih =>
    intro acc
    by_cases hx : sceneMatches x = true
    · have hxe : x = sc := by
        rw [List.find?_cons_of_pos _ hx] at hfind
        simpa using hfind
      subst hxe
      rw [makeSlideParamsGo_cons_hit x rest acc p tid u hppt hm]
    · have hx2 : sceneMatches x = false := by
        cases hxx : sceneMatches x
        · rfl
        · exact absurd hxx hx
      rw [List.find?_cons_of_neg _ (by simp [hx2])] at hfind
      rw [makeSlideParamsGo_cons_skip x rest acc hx2]
      exact ih hfind _

/-- C5: with the window manager present, a scene list whose first matching
scene carries the given pptx conversion source is routed to the slide
window kind with task identifier TASK123 and the reconstructed https base
URL, and a scene list with no matching scene is routed to the generic
document-viewer window kind with the original scene list unmodified. -/
theorem c5_document_routing (st : GatewayState)
    (outcome : AddAppCall → Except String Unit)
    (scenePath title : String) (scenes : List SceneDef)
    (hwm : st.windowManager = true) :
    ((∃ sc, scenes.find? sceneMatches = some sc ∧
        sc.ppt = some { src := "pptx://cdn.example.com/prefix/dynamicConvert/TASK123/1.slide" }) →
      ∃ call log,
        openDocsFileInWindowManager st outcome scenePath title scenes = .ok (st, some call, log) ∧
        call.kind = .slide ∧ call.taskId = some "TASK123" ∧
        call.url = some "https://cdn.example.com/prefix/dynamicConvert") ∧
    (scenes.find? sceneMatches = none →
      ∃ call log,
        openDocsFileInWindowManager st outcome scenePath title scenes = .ok (st, some call, log) ∧
        call.kind = .docsViewer ∧ call.scenes = some scenes) := by
  constructor
  · rintro ⟨sc, hfind, hppt⟩
    have hm : pptSrcMatch "pptx://cdn.example.com/prefix/dynamicConvert/TASK123/1.slide"
        = some ("TASK123", "https://cdn.example.com/prefix/dynamicConvert") := by decide
    have h2 := makeSlideParams_first_hit scenes sc _ _ _ hfind hppt hm
    have h21 : (makeSlideParams scenes).2.1 = "TASK123" := by rw [h2]
    have h22 : (makeSlideParams scenes).2.2 = "https://cdn.example.com/prefix/dynamicConvert" := by
      rw [h2]
    unfold openDocsFileInWindowManager
    rw [if_pos hwm]
    dsimp only
    rw [h21, h22]
    rw [if_pos (by decide)]
    obtain ⟨log, hlog⟩ := catchLog_ok st _ (outcome _)
    exact ⟨_, log, hlog, rfl, rfl, rfl⟩
  · intro hfind
    have h2 := makeSlideParams_no_match scenes hfind
    have h21 : (makeSlideParams scenes).2.1 = "" := by rw [h2]
    unfold openDocsFileInWindowManager
    rw [if_pos hwm]
    dsimp only
    rw [h21]
    rw [if_neg (by simp)]
    obtain ⟨log, hlog⟩ := catchLog_ok st _ (outcome _)
    exact ⟨_, log, hlog, rfl, rfl⟩

/-- C5 witness: concrete scene lists exercising both routes. -/
theorem c5_document_routing_witness :
    (∃ call log,
        openDocsFileInWindowManager { windowManager := true } (fun _ => Except.ok ())
            "/docs" "doc"
            [{ name := some "cover", ppt := none },
             { name := some "page1",
               ppt := some
                 { src := "pptx://cdn.example.com/prefix/dynamicConvert/TASK123/1.slide" } }]
          = .ok ({ windowManager := true }, some call, log) ∧
        call.kind = .slide ∧ call.taskId = some "TASK123" ∧
        call.url = some "https://cdn.example.com/prefix/dynamicConvert") ∧
    (∃ call log,
        openDocsFileInWindowManager { windowManager := true } (fun _ => Except.ok ())
            "/docs" "doc" [{ name := some "cover", ppt := none }]
          = .ok ({ windowManager := true }, some call, log) ∧
        call.kind = .docsViewer ∧
        call.scenes = some [{ name := some "cover", ppt := none }]) :=
  ⟨(c5_document_routing { windowManager := true } (fun _ => Except.ok ()) "/docs" "doc" _ rfl).1
     ⟨{ name := some "page1",
        ppt := some
          { src := "pptx://cdn.example.com/prefix/dynamicConvert/TASK123/1.slide" } },
      by decide, rfl⟩,
   (c5_document_routing { windowManager := true } (fun _ => Except.ok ()) "/docs" "doc" _ rfl).2
     (by decide)⟩

end WhiteboardStore
